import Mathlib

/-!
Shallow embedding of the plot-composition core of `btplotting`
(`src/btplotting/app.py`, class `BacktraderPlotting`), together with
theorems settling the frozen claims about its specification.

Python objects are modelled as follows: an object's `plotinfo` namespace
(attributes are added dynamically with `setattr`/`hasattr`) is an
association list from attribute names to `Value`s; Python exceptions are
modelled by `PyResult`, a result type that carries the state reached at
the moment the exception is raised (Python mutates objects in place, so a
raised exception leaves all mutations made so far visible).

Parts of the repository that are referenced by `app.py` but are not under
`src/` (`figure.py`, `utils.py`, `helper/label.py`) are modelled from the
spec; each such definition carries a doc comment saying so.
-/

namespace Btp

/-- A Python attribute value as stored on an object's `plotinfo`
namespace: `None`, a string, an integer or a boolean. -/
inductive Value where
  | vNone
  | vStr (s : String)
  | vInt (n : Int)
  | vBool (b : Bool)
deriving DecidableEq

/-- The dynamic attribute namespace `obj.plotinfo`: an association list
from attribute names to values (Python objects allow dynamic `setattr`). -/
abbrev PlotInfo := List (String × Value)

/-- `getattr(plotinfo, k, None)`-style lookup: first binding of `k`. -/
def lookupAttr : PlotInfo → String → Option Value
  | [], _ => none
  | (k0, v) :: rest, k => if k0 = k then some v else lookupAttr rest k

/-- `hasattr(obj.plotinfo, k)` from `app.py` lines 131/133. -/
def hasAttr (pi : PlotInfo) (k : String) : Bool :=
  (lookupAttr pi k).isSome

/-- `setattr(obj.plotinfo, k, v)`: overwrite the binding of `k` if it
exists, otherwise append a new binding. -/
def setAttr : PlotInfo → String → Value → PlotInfo
  | [], k, v => [(k, v)]
  | (k0, v0) :: rest, k, v =>
    if k0 = k then (k0, v) :: rest else (k0, v0) :: setAttr rest k v

/-- Modelled from the spec: the closed set of figure kinds
{DATA, INDICATOR, OBSERVER, VOLUME} (`figure.py` is not under `src/`;
`app.py` references `FigureType.DATA`, `.IND`, `.OBS`, `.VOL`). -/
inductive FigureType where
  | DATA
  | IND
  | OBS
  | VOL
deriving DecidableEq

/-- Modelled from the spec: the Python enum member name used to build
default plot ids (`FigureType.get_type(obj).name` in `app.py` line 132). -/
def FigureType.name : FigureType → String
  | .DATA => "DATA"
  | .IND => "IND"
  | .OBS => "OBS"
  | .VOL => "VOL"

/-- Modelled from the spec: the ordering value of a figure kind used as
the last sort-key component (`x.get_type().value` in `app.py` line 382);
the spec fixes only that kinds sort ascending in a closed set, so kinds
are numbered in the spec's listing order. -/
def FigureType.value : FigureType → Nat
  | .DATA => 0
  | .IND => 1
  | .OBS => 2
  | .VOL => 3

/-- Modelled from the spec: `FigureType.get_obj[target_type]`, the mapping
from a category name to the runtime category an object is tested against
in the `byTypeAndOrdinal` branch (`app.py` line 153); an unknown name is a
`KeyError`, modelled as `none`. -/
def FigureType.get_obj : String → Option FigureType
  | "DATA" => some .DATA
  | "IND" => some .IND
  | "OBS" => some .OBS
  | "VOL" => some .VOL
  | _ => none

/-- Regular expressions over characters, modelling the patterns handed to
Python's `re` module by the `byLabelRegex` branch (`app.py` line 147). -/
inductive Regex where
  | emp
  | eps
  | chr (c : Char)
  | alt (r₁ r₂ : Regex)
  | cat (r₁ r₂ : Regex)
  | star (r : Regex)
deriving DecidableEq

/-- Whether a regex accepts the empty string. -/
def nullable : Regex → Bool
  | .emp => false
  | .eps => true
  | .chr _ => false
  | .alt r₁ r₂ => nullable r₁ || nullable r₂
  | .cat r₁ r₂ => nullable r₁ && nullable r₂
  | .star _ => true

/-- Brzozowski derivative of a regex by a character. -/
def deriv : Regex → Char → Regex
  | .emp, _ => .emp
  | .eps, _ => .emp
  | .chr c, a => if c = a then .eps else .emp
  | .alt r₁ r₂, a => .alt (deriv r₁ a) (deriv r₂ a)
  | .cat r₁ r₂, a =>
    if nullable r₁ then .alt (.cat (deriv r₁ a) r₂) (deriv r₂ a)
    else .cat (deriv r₁ a) r₂
  | .star r, a => .cat (deriv r a) (.star r)

/-- Full match: the regex accepts exactly the whole character list
(Python `re.fullmatch` semantics). -/
def rmatch (r : Regex) : List Char → Bool
  | [] => nullable r
  | c :: cs => rmatch (deriv r c) cs

/-- Python `re.match` semantics: the regex matches some prefix of the
input, anchored at position 0 (a full match is not required). This is the
matching primitive `app.py` line 147 actually uses. -/
def reMatch (r : Regex) : List Char → Bool
  | [] => nullable r
  | c :: cs => nullable r || reMatch (deriv r c) cs

/-- Python `re.search` semantics: the regex matches somewhere in the
input, anchored nowhere. -/
def reSearch (r : Regex) : List Char → Bool
  | [] => nullable r
  | c :: cs => reMatch r (c :: cs) || reSearch r cs

/-- Decimal rendering of a natural number, modelling Python `str(int)`
as used by the f-string in `app.py` line 132. -/
def natChars (n : Nat) : List Char :=
  if _h : n < 10 then [Nat.digitChar n]
  else natChars (n / 10) ++ [Nat.digitChar (n % 10)]
decreasing_by
  exact Nat.div_lt_self (by omega) (by omega)

/-- Decimal rendering of a natural number as a string. -/
def natStr (n : Nat) : String :=
  ⟨natChars n⟩

/-- Python `str.split('-')` on a character list: split at every `'-'`,
keeping empty groups (`"a--b".split('-') == ['a', '', 'b']`). -/
def split_dash : List Char → List (List Char)
  | [] => [[]]
  | c :: cs =>
    match split_dash cs with
    | [] => if c = '-' then [[], [c]] else [[c]]
    | g :: gs => if c = '-' then [] :: g :: gs else (c :: g) :: gs

/-- Python `target.split('-')` as used in `app.py` line 151. -/
def py_split_dash (s : String) : List String :=
  (split_dash s.data).map (fun l => ⟨l⟩)

/-- The numeric value of a decimal digit character, else `none`. -/
def digitVal (c : Char) : Option Nat :=
  if '0' ≤ c ∧ c ≤ '9' then some (c.toNat - 48) else none

/-- Accumulating decimal parse of a digit string. -/
def parseNatAux : List Char → Nat → Option Nat
  | [], acc => some acc
  | c :: cs, acc =>
    match digitVal c with
    | none => none
    | some d => parseNatAux cs (acc * 10 + d)

/-- Python `int(s)` as used in `app.py` line 155, for the strings that
can reach it (a piece of a `'-'`-split never contains a sign): a
non-empty all-digit string parses to its decimal value, anything else
raises `ValueError`, modelled as `none`. -/
def parseInt (s : String) : Option Int :=
  match s.data with
  | [] => none
  | cs => (parseNatAux cs 0).map (fun n => (n : Int))

/-- A plot object: a node of the introspected object graph. The dynamic
fields patched by the core live in `plotinfo`; `label` models
`obj2label(obj)` (helper module not under `src/`, spec: "display name");
`dataname` models `get_dataname(obj)` (`none` for the clock-irrelevant
result `False`); `isStrategy` models `isinstance(obj, bt.Strategy)`. -/
structure PObj where
  ftype : FigureType
  isStrategy : Bool := false
  label : String := ""
  dataname : Option String := none
  plotinfo : PlotInfo := []
deriving DecidableEq

/-- One entry of the `plotconfig` ordered mapping: the key
`"<ctype>:<target>"` is stored pre-split at the colon (`app.py` line 144);
`targetRe` is the regex the string `target` denotes when the rule is a
`byLabelRegex` rule (Python compiles the pattern string; the embedding
carries the compiled form). -/
structure ConfigRule where
  ctype : String
  target : String
  targetRe : Regex := .emp
  overrides : List (String × Value) := []
deriving DecidableEq

/-- A Python computation over state `σ` returning `α`: either a normal
result or an exception. Both constructors carry the state reached,
because Python mutates objects in place before an exception escapes. -/
inductive PyResult (σ : Type) (α : Type) where
  | ok (s : σ) (a : α)
  | exn (s : σ) (msg : String)
deriving DecidableEq

/-- The state a computation reached, whether it finished or raised. -/
def resultState {σ α : Type} : PyResult σ α → σ
  | .ok s _ => s
  | .exn s _ => s

/-- Map a function over the state of a result. -/
def PyResult.mapS {σ σ' α : Type} (f : σ → σ') : PyResult σ α → PyResult σ' α
  | .ok s a => .ok (f s) a
  | .exn s m => .exn (f s) m

/-- `apply_config` from `app.py` lines 139-141: set every override
attribute on the object's `plotinfo` namespace, in order. -/
def apply_config (pi : PlotInfo) : List (String × Value) → PlotInfo
  | [] => pi
  | (k, v) :: rest => apply_config (setAttr pi k v) rest

/-- Apply a rule's override set to an object: `apply_config` on the
object's `plotinfo` namespace. -/
def overridden (obj : PObj) (rule : ConfigRule) : PObj :=
  { obj with plotinfo := apply_config obj.plotinfo rule.overrides }

/-- One iteration of the rule loop of `_configure_plotobject`
(`app.py` lines 143-165): dispatch on the rule's match-kind and apply the
overrides when the rule matches the object at ordinal `idx`. -/
def apply_rule (obj : PObj) (idx : Nat) (rule : ConfigRule) : PyResult PObj Unit :=
  if rule.ctype = "r" then
    .ok (if reMatch rule.targetRe obj.label.data then overridden obj rule else obj) ()
  else if rule.ctype = "" then
    -- Python `ctype[0]` on an empty string raises IndexError
    .exn obj "IndexError"
  else if rule.ctype.front = '#' then
    match py_split_dash rule.target with
    | [target_type, target_idx] =>
      match FigureType.get_obj target_type with
      | none => .exn obj "KeyError"
      | some ft =>
        if obj.ftype ≠ ft then .ok obj ()
        else match parseInt target_idx with
          | none => .exn obj "ValueError"
          | some n =>
            if n ≠ (idx : Int) then .ok obj ()
            else .ok (overridden obj rule) ()
    | _ => .exn obj "ValueError"
  else if rule.ctype = "id" then
    match lookupAttr obj.plotinfo "plotid" with
    | none => .exn obj "AttributeError"
    | some v =>
      if v = Value.vNone ∨ v ≠ Value.vStr rule.target then .ok obj ()
      else .ok (overridden obj rule) ()
  else
    .exn obj "Unknown config type in plotting config"

/-- The rule loop of `_configure_plotobject`: evaluate every configured
rule in insertion order; an exception aborts the loop with the mutations
made so far. -/
def apply_rules (obj : PObj) (idx : Nat) : List ConfigRule → PyResult PObj Unit
  | [] => .ok obj ()
  | r :: rest =>
    match apply_rule obj idx r with
    | .exn o m => .exn o m
    | .ok o _ => apply_rules o idx rest

/-- The default-identity part of `_configure_plotobject`
(`app.py` lines 130-134): patch the object to contain `plotid`
(`"<TypeName><ordinal>"`) and `plotorder` (`0`) when absent. -/
def set_defaults (obj : PObj) (idx : Nat) : PObj :=
  let obj := if hasAttr obj.plotinfo "plotid" then obj
    else { obj with plotinfo := setAttr obj.plotinfo "plotid" (Value.vStr (obj.ftype.name ++ natStr idx)) }
  if hasAttr obj.plotinfo "plotorder" then obj
  else { obj with plotinfo := setAttr obj.plotinfo "plotorder" (Value.vInt 0) }

/-- `_configure_plotobject` (`app.py` lines 125-165): assign identity
defaults, then, if a `plotconfig` is set, run the rule loop. -/
def configure_plotobject (plotconfig : Option (List ConfigRule))
    (obj : PObj) (idx : Nat) : PyResult PObj Unit :=
  let obj := set_defaults obj idx
  match plotconfig with
  | none => .ok obj ()
  | some rules => apply_rules obj idx rules

/-- The inner child loop of `_configure_plotting` (`app.py` lines
121-123), generalized to any object list: configure each object at the
running ordinal `i`, incrementing `i` once per object; on success return
the final counter. -/
def configure_list (plotconfig : Option (List ConfigRule)) :
    List PObj → Nat → PyResult (List PObj) Nat
  | [], i => .ok [] i
  | o :: rest, i =>
    match configure_plotobject plotconfig o i with
    | .exn o' m => .exn (o' :: rest) m
    | .ok o' _ =>
      match configure_list plotconfig rest (i + 1) with
      | .exn rest' m => .exn (o' :: rest') m
      | .ok rest' i' => .ok (o' :: rest') i'

/-- The master loop of `_configure_plotting` (`app.py` lines 116-123):
for each master, configure it at the running ordinal unless it is the
strategy instance (which is skipped and consumes no ordinal), then
configure all of its children. -/
def configure_masters (plotconfig : Option (List ConfigRule)) :
    List (PObj × List PObj) → Nat → PyResult (List (PObj × List PObj)) Nat
  | [], i => .ok [] i
  | (d, cs) :: rest, i =>
    if d.isStrategy then
      match configure_list plotconfig cs i with
      | .exn cs' m => .exn ((d, cs') :: rest) m
      | .ok cs' i' =>
        match configure_masters plotconfig rest i' with
        | .exn rest' m => .exn ((d, cs') :: rest') m
        | .ok rest' i'' => .ok ((d, cs') :: rest') i''
    else
      match configure_plotobject plotconfig d i with
      | .exn d' m => .exn ((d', cs) :: rest) m
      | .ok d' _ =>
        match configure_list plotconfig cs (i + 1) with
        | .exn cs' m => .exn ((d', cs') :: rest) m
        | .ok cs' i' =>
          match configure_masters plotconfig rest i' with
          | .exn rest' m => .exn ((d', cs') :: rest') m
          | .ok rest' i'' => .ok ((d', cs') :: rest') i''

/-- `_configure_plotting` (`app.py` lines 109-123): run the configuration
traversal over the page's master→children map, starting the global
ordinal counter at 0. The map is the result of
`get_plotobjs(fp.strategy, include_non_plotable=True)` (an ordered
master→children mapping supplied by the introspection collaborator). -/
def configure_plotting (plotconfig : Option (List ConfigRule))
    (objs : List (PObj × List PObj)) : PyResult (List (PObj × List PObj)) Nat :=
  configure_masters plotconfig objs 0

/-- The deterministic traversal sequence of the configuration pass with
strategy masters removed: each non-strategy master immediately followed
by its children; a strategy master contributes only its children. -/
def flatten_plotobjs : List (PObj × List PObj) → List PObj
  | [] => []
  | (d, cs) :: rest =>
    (if d.isStrategy then cs else d :: cs) ++ flatten_plotobjs rest

/-- The effect of the default-identity pass on a plain object sequence:
object `j` of the list receives defaults at ordinal `i + j`. -/
def defaults_list : List PObj → Nat → List PObj
  | [], _ => []
  | o :: rest, i => set_defaults o i :: defaults_list rest (i + 1)

/-- `_get_plotobjects` (`app.py` lines 167-182): filter the
master→children map by an opaque predicate (`filter_obj` applied to the
caller's filter): a filtered-out master is dropped with all of its
children; a kept master keeps each child whose predicate is false. -/
def get_plotobjects (objs : List (PObj × List PObj)) (p : PObj → Bool) :
    List (PObj × List PObj) :=
  match objs with
  | [] => []
  | (o, childs) :: rest =>
    if p o then get_plotobjects rest p
    else (o, childs.filter (fun c => !p c)) :: get_plotobjects rest p

/-- The scheme fields of the app that the composition core reads
(`self.scheme.volume`, `self.scheme.voloverlay`). -/
structure Scheme where
  volume : Bool
  voloverlay : Bool
deriving DecidableEq

/-- Modelled from the spec: one figure unit (the `Figure` class lives in
`figure.py`, which is not under `src/`): exactly one master, its overlaid
children, a figure kind (the master's kind, or VOLUME for derived volume
figures), and the identity of the bokeh x-axis range object the figure
references (`figure.x_range`); a freshly built figure references a fresh
range object, modelled by a unique allocation number. -/
structure BFigure where
  master : PObj
  childs : List PObj
  ftype : FigureType
  xRangeRef : Nat
deriving DecidableEq

/-- The figure-construction loop of `_blueprint_strategy` (`app.py` lines
198-209): one figure per (master, children) pair, in filtered order; the
`i`-th constructed figure references the `i`-th fresh x-range object. -/
def build_figures : List (PObj × List PObj) → Nat → List BFigure
  | [], _ => []
  | (parent, childs) :: rest, i =>
    ⟨parent, childs, parent.ftype, i⟩ :: build_figures rest (i + 1)

/-- The axis-linking loop of `_blueprint_strategy` (`app.py` lines
211-213): `figures[i].figure.x_range = figures[0].figure.x_range` for
every `i ≥ 1`. -/
def link_axis : List BFigure → List BFigure
  | [] => []
  | f0 :: rest => f0 :: rest.map (fun f => { f with xRangeRef := f0.xRangeRef })

/-- The volume-figure loop of `_blueprint_strategy` (`app.py` lines
219-231): for every DATA figure one derived VOLUME figure with the same
master and no children, each referencing a fresh x-range object,
appended after the primary figures. -/
def volume_figures (figures : List BFigure) : List BFigure :=
  (build_figures ((figures.filter (fun f => f.ftype = FigureType.DATA)).map
    (fun f => (f.master, ([] : List PObj)))) figures.length).map
    (fun f => { f with ftype := FigureType.VOL })

/-- `_blueprint_strategy` (`app.py` lines 184-235), restricted to the
figure set it leaves on the page: filter the objects, build one figure
per master, link every primary figure's x-range to the first one's, then
append derived volume figures when the scheme asks for non-overlaid
volume. -/
def blueprint_strategy (scheme : Scheme) (objs : List (PObj × List PObj))
    (p : PObj → Bool) : List BFigure :=
  let objects := get_plotobjects objs p
  let figures := link_axis (build_figures objects 0)
  if scheme.volume && scheme.voloverlay = false then
    figures ++ volume_figures figures
  else figures

/-- The strategy data consumed by the core: the introspected
master→children map (`get_plotobjs`), the declared data-feed names
(`get_datanames(strategy, filter=False)`) and the analyzer items
(`strategy.analyzers.getitems()`), all modelled from the spec's
collaborator interface (the introspector lives in `utils.py`, not under
`src/`). -/
structure Strategy where
  objs : List (PObj × List PObj)
  datanames : List String
  analyzers : List String
deriving DecidableEq

/-- The object handed to `create_figurepage`: a strategy, an optimization
result, or anything else (the unsupported case of `app.py` line 324). -/
inductive SourceObj where
  | strategy (s : Strategy)
  | optreturn (analyzers : List String)
  | unsupported
deriving DecidableEq

/-- Modelled from the spec: the state of one plotting session
(`FigurePage` lives in `figure.py`, not under `src/`): the originating
strategy or optimization result, the collected analyzers and the figure
set. A freshly constructed page has no figures and no analyzers. -/
structure FigurePage where
  strategy : Option Strategy
  optret : Option (List String)
  analyzers : List String
  figures : List BFigure
deriving DecidableEq

/-- Modelled from the spec: `FigurePage(obj, scheme)` — a fresh page
bound to the originating object. -/
def FigurePage.init : SourceObj → FigurePage
  | .strategy s => ⟨some s, none, [], []⟩
  | .optreturn a => ⟨none, some a, [], []⟩
  | .unsupported => ⟨none, none, [], []⟩

/-- The application state the session layer mutates: the ordered
`figid → FigurePage` mapping `self._figurepages` (a Python dict; a new
key is appended), the scheme, and the `plotconfig` rule set. -/
structure AppState where
  figurepages : List (Nat × FigurePage)
  scheme : Scheme
  plotconfig : Option (List ConfigRule)
deriving DecidableEq

/-- Replace the page bound to `figid` in the ordered mapping. -/
def set_page : List (Nat × FigurePage) → Nat → FigurePage → List (Nat × FigurePage)
  | [], _, _ => []
  | (k, fp0) :: rest, figid, fp =>
    if k = figid then (k, fp) :: rest else (k, fp0) :: set_page rest figid fp

/-- The strategy pipeline run by `create_figurepage` (`app.py` lines
315-321) on the page bound to `figid`: `_configure_plotting` then
`_blueprint_strategy` (the data-clock and table-fill steps touch only
alignment state that no claim is about and are not modelled). An
exception escapes with the partially configured strategy left on the
page, as in Python. -/
def run_strategy_pipeline (app : AppState) (figid : Nat) (s : Strategy)
    (p : PObj → Bool) : PyResult AppState Nat :=
  match configure_plotting app.plotconfig s.objs with
  | .exn objs' m =>
    .exn { app with figurepages := set_page app.figurepages figid (FigurePage.mk (some { s with objs := objs' }) none [] []) } m
  | .ok objs' _ =>
    let s' : Strategy := { s with objs := objs' }
    let figs := blueprint_strategy app.scheme s'.objs p
    .ok { app with figurepages := set_page app.figurepages figid (FigurePage.mk (some s') none s.analyzers figs) } figid

/-- `create_figurepage` (`app.py` lines 304-327): construct a fresh page,
fail if the session id is already bound, otherwise bind the page and run
the pipeline matching the source object's kind; a source object that is
neither a strategy nor an optimization result raises after the binding
has already happened. -/
def create_figurepage (app : AppState) (obj : SourceObj) (figid : Nat)
    (p : PObj → Bool) : PyResult AppState Nat :=
  let fp := FigurePage.init obj
  if (app.figurepages.lookup figid).isSome then
    .exn app ("FigurePage with figid " ++ natStr figid ++ " already exists")
  else
    let app1 : AppState := { app with figurepages := app.figurepages ++ [(figid, fp)] }
    match obj with
    | .strategy s => run_strategy_pipeline app1 figid s p
    | .optreturn a =>
      .ok { app1 with figurepages := set_page app1.figurepages figid { fp with analyzers := a } } figid
    | .unsupported => .exn app1 "Unsupported plot source object"

/-- The feed sort key of `generate_model_panels` (`app.py` lines
373-377): the dict `{False: 0}` extended with the declared data names
enumerated from 1; `none` models the clock-irrelevant key `False`. -/
def data_sort_key (datanames : List String) : Option String → Nat
  | none => 0
  | some d => datanames.indexOf d + 1

/-- Modelled from the spec: `x.get_plotorder()` (`figure.py` is not under
`src/`; spec: `plotOrder` is an integer attribute of the master, default
0, used as primary sort key). -/
def BFigure.get_plotorder (f : BFigure) : Int :=
  match lookupAttr f.master.plotinfo "plotorder" with
  | some (Value.vInt n) => n
  | _ => 0

/-- The sort key tuple of `app.py` lines 379-382:
`(plotorder, data_sort[dataname of master], figure kind value)`. -/
def fig_sort_key (datanames : List String) (f : BFigure) : Int × Nat × Nat :=
  (f.get_plotorder, data_sort_key datanames f.master.dataname, f.ftype.value)

/-- Lexicographic "less or equal" on sort-key tuples: the comparison
`list.sort(key=...)` performs on Python tuples. -/
def key_le (a b : Int × Nat × Nat) : Bool :=
  decide (a.1 < b.1) ||
    (decide (a.1 = b.1) && (decide (a.2.1 < b.2.1) ||
      (decide (a.2.1 = b.2.1) && decide (a.2.2 ≤ b.2.2))))

/-- The figure sort of `generate_model_panels` (`app.py` lines 378-382):
Python's `list.sort(key=...)` is a stable sort by the key tuple, embedded
as a stable merge sort by `key_le` on keys. -/
def sort_figures (datanames : List String) (figs : List BFigure) : List BFigure :=
  figs.mergeSort (fun a b => key_le (fig_sort_key datanames a) (fig_sort_key datanames b))

/-- Decimal decoding of a digit string with an accumulator, used to show
that `natChars` is injective. -/
def decodeDigits : List Char → Nat → Nat
  | [], acc => acc
  | c :: cs, acc => decodeDigits cs (acc * 10 + (c.toNat - 48))

/- Concrete inputs used by the witness and counterexample theorems. -/

/-- An indicator object whose label is `"ab"` and whose `plotinfo`
already carries a `plotid` and a `plotorder`. -/
def c1obj : PObj :=
  { ftype := .IND, label := "ab",
    plotinfo := [("plotid", Value.vStr "X"), ("plotorder", Value.vInt 0)] }

/-- A `byLabelRegex` rule (key `"r:b"`) whose pattern is the literal
character `b` and whose override set colors the object red. -/
def c1rule : ConfigRule :=
  { ctype := "r", target := "b", targetRe := .chr 'b',
    overrides := [("color", Value.vStr "red")] }

/-- An app holding one page bound to session id 0. -/
def c3app : AppState :=
  { figurepages := [(0, FigurePage.init .unsupported)],
    scheme := { volume := false, voloverlay := false }, plotconfig := none }

/-- A `byTypeAndOrdinal` rule (key `"#1:IND-3"`) targeting indicator
objects at ordinal 3. -/
def c4rule : ConfigRule :=
  { ctype := "#1", target := "IND-3",
    overrides := [("color", Value.vStr "red")] }

/-- Two non-strategy masters both carrying the pre-assigned plotid
`"X"`. -/
def c5objs : List (PObj × List PObj) :=
  [({ ftype := .DATA, label := "d1", plotinfo := [("plotid", Value.vStr "X")] }, []),
   ({ ftype := .DATA, label := "d2", plotinfo := [("plotid", Value.vStr "X")] }, [])]

/-- A master→children map with two masters lacking any pre-assigned
identity attributes. -/
def c5wobjs : List (PObj × List PObj) :=
  [({ ftype := .DATA, label := "d" }, [{ ftype := .IND, label := "i" }]),
   ({ ftype := .OBS, label := "o" }, [])]

/-- A scheme asking for non-overlaid volume figures. -/
def c6scheme : Scheme := { volume := true, voloverlay := false }

/-- A single data-feed master with no children. -/
def c6objs : List (PObj × List PObj) :=
  [({ ftype := .DATA, label := "d", dataname := some "d" }, [])]

/-- Two plain masters used to witness primary-figure axis linking. -/
def c6wobjs : List (PObj × List PObj) :=
  [({ ftype := .DATA, label := "d", dataname := some "d" }, []),
   ({ ftype := .IND, label := "i", dataname := some "d" }, [])]

/-- A rule whose match-kind `"zzz"` parses into none of the three known
kinds. -/
def c8rule : ConfigRule :=
  { ctype := "zzz", target := "t", overrides := [("color", Value.vStr "red")] }

/-- A strategy master (skipped by the configuration traversal) with one
child that already carries identity attributes. -/
def c9objs : List (PObj × List PObj) :=
  [({ ftype := .DATA, isStrategy := true, label := "s" },
    [{ ftype := .IND, label := "c",
       plotinfo := [("plotid", Value.vStr "C"), ("plotorder", Value.vInt 0)] }])]

/-- An app with no pages bound. -/
def c10app : AppState :=
  { figurepages := [],
    scheme := { volume := false, voloverlay := false }, plotconfig := none }


/-! Helper lemmas about the embedded definitions. -/

theorem rmatch_nil (r : Regex) : rmatch r [] = nullable r := rfl

theorem rmatch_cons (r : Regex) (c : Char) (cs : List Char) : rmatch r (c :: cs) = rmatch (deriv r c) cs := rfl

theorem reMatch_iff (r : Regex) (s : List Char) :
    reMatch r s = true ↔ ∃ p t, s = p ++ t ∧ rmatch r p = true := by
  induction s generalizing r with
  | nil =>
    constructor
    · intro h
      exact ⟨[], [], rfl, h⟩
    · rintro ⟨p, t, hpt, hm⟩
      have hp : p = [] := (List.append_eq_nil.mp hpt.symm).1
      subst hp
      exact hm
  | cons c cs ih =>
    constructor
    · intro h
      rcases Bool.or_eq_true_iff.mp h with h1 | h1
      · exact ⟨[], c :: cs, rfl, h1⟩
      · obtain ⟨p, t, hpt, hm⟩ := (ih (deriv r c)).mp h1
        exact ⟨c :: p, t, by simp [hpt], hm⟩
    · rintro ⟨p, t, hpt, hm⟩
      cases p with
      | nil =>
        simp only [List.nil_append] at hpt
        subst hpt
        exact Bool.or_eq_true_iff.mpr (Or.inl hm)
      | cons p0 ps =>
        rw [List.cons_append] at hpt
        injection hpt with h0 hrest
        subst h0
        refine Bool.or_eq_true_iff.mpr (Or.inr ?_)
        exact (ih (deriv r c)).mpr ⟨ps, t, hrest, hm⟩

theorem reSearch_iff (r : Regex) (s : List Char) :
    reSearch r s = true ↔ ∃ u p t, s = u ++ p ++ t ∧ rmatch r p = true := by
  induction s with
  | nil =>
    constructor
    · intro h
      exact ⟨[], [], [], rfl, h⟩
    · rintro ⟨u, p, t, hupt, hm⟩
      have h1 := List.append_eq_nil.mp hupt.symm
      have h2 := List.append_eq_nil.mp h1.1
      obtain ⟨rfl⟩ := h2.2
      simpa using hm
  | cons c cs ih =>
    constructor
    · intro h
      rcases Bool.or_eq_true_iff.mp h with h1 | h1
      · obtain ⟨p, t, hpt, hm⟩ := (reMatch_iff r (c :: cs)).mp h1
        exact ⟨[], p, t, by simpa using hpt, hm⟩
      · obtain ⟨u, p, t, hupt, hm⟩ := ih.mp h1
        exact ⟨c :: u, p, t, by simp [hupt], hm⟩
    · rintro ⟨u, p, t, hupt, hm⟩
      cases u with
      | nil =>
        simp only [List.nil_append] at hupt
        refine Bool.or_eq_true_iff.mpr (Or.inl ?_)
        exact (reMatch_iff r (c :: cs)).mpr ⟨p, t, hupt, hm⟩
      | cons u0 us =>
        simp only [List.cons_append] at hupt
        injection hupt with h0 hrest
        refine Bool.or_eq_true_iff.mpr (Or.inr ?_)
        exact ih.mpr ⟨us, p, t, hrest, hm⟩

theorem digitChar_val (n : Nat) (h : n < 10) : (Nat.digitChar n).toNat - 48 = n := by
  interval_cases n <;> rfl

theorem decodeDigits_append (xs : List Char) (c : Char) :
    ∀ acc, decodeDigits (xs ++ [c]) acc = (decodeDigits xs acc) * 10 + (c.toNat - 48) := by
  induction xs with
  | nil => intro acc; rfl
  | cons x xs ih =>
    intro acc
    simp only [List.cons_append, decodeDigits]
    exact ih _

theorem natChars_len_pos (n : Nat) : 0 < (natChars n).length := by
  rw [natChars]
  by_cases h : n < 10 <;> simp [h]

theorem decodeDigits_natChars (n : Nat) :
    ∀ acc, decodeDigits (natChars n) acc = acc * 10 ^ (natChars n).length + n := by
  induction n using Nat.strong_induction_on with
  | _ n ih =>
    intro acc
    by_cases h : n < 10
    · rw [natChars]
      simp only [h, dite_true, decodeDigits, List.length_singleton]
      rw [digitChar_val n h]
      ring
    · have hdiv : n / 10 < n := Nat.div_lt_self (by omega) (by omega)
      have heq : natChars n = natChars (n / 10) ++ [Nat.digitChar (n % 10)] := by
        rw [natChars]; simp [h]
      have hmod : n / 10 * 10 + n % 10 = n := by omega
      rw [heq, decodeDigits_append, ih (n / 10) hdiv acc, digitChar_val (n % 10) (by omega)]
      rw [List.length_append, List.length_singleton, pow_succ]
      calc (acc * 10 ^ (natChars (n / 10)).length + n / 10) * 10 + n % 10
          = acc * (10 ^ (natChars (n / 10)).length * 10) + (n / 10 * 10 + n % 10) := by ring
        _ = acc * (10 ^ (natChars (n / 10)).length * 10) + n := by rw [hmod]

theorem natChars_injective (m n : Nat) (h : natChars m = natChars n) : m = n := by
  have hm := decodeDigits_natChars m 0
  have hn := decodeDigits_natChars n 0
  rw [h] at hm
  rw [hm] at hn
  omega

theorem natStr_injective (m n : Nat) (h : natStr m = natStr n) : m = n := by
  apply natChars_injective
  have := congrArg String.data h
  simpa [natStr] using this

theorem plotid_inj (t₁ t₂ : FigureType) (i₁ i₂ : Nat)
    (h : t₁.name ++ natStr i₁ = t₂.name ++ natStr i₂) : t₁ = t₂ ∧ i₁ = i₂ := by
  have hd : t₁.name.data ++ natChars i₁ = t₂.name.data ++ natChars i₂ := by
    have := congrArg String.data h
    simpa [String.data_append, natStr] using this
  cases t₁ <;> cases t₂ <;>
    first
      | exact ⟨rfl, natChars_injective _ _ (List.append_cancel_left hd)⟩
      | (exfalso
         have hh := congrArg (fun l => l.headD ' ') hd
         simp only [FigureType.name, List.cons_append, List.headD_cons] at hh
         exact absurd hh (by decide))

theorem natStr_ne_empty_append (t : FigureType) : t.name ++ natStr i ≠ "" := by
  intro h
  have := congrArg String.data h
  rw [String.data_append] at this
  have h2 : (t.name.data ++ (natStr i).data).length = 0 := by rw [this]; rfl
  rw [List.length_append] at h2
  have : 0 < (natStr i).data.length := natChars_len_pos i
  omega

theorem lookupAttr_setAttr_self (pi : PlotInfo) (k : String) (v : Value) :
    lookupAttr (setAttr pi k v) k = some v := by
  induction pi with
  | nil => simp [setAttr, lookupAttr]
  | cons kv rest ih =>
    obtain ⟨k0, v0⟩ := kv
    by_cases h : k0 = k
    · simp [setAttr, lookupAttr, h]
    · simp [setAttr, lookupAttr, h, ih]

theorem lookupAttr_setAttr_ne (pi : PlotInfo) (k k' : String) (v : Value) (h : k ≠ k') :
    lookupAttr (setAttr pi k v) k' = lookupAttr pi k' := by
  induction pi with
  | nil => simp [setAttr, lookupAttr, h]
  | cons kv rest ih =>
    obtain ⟨k0, v0⟩ := kv
    by_cases h0 : k0 = k
    · subst h0
      simp [setAttr, lookupAttr, h]
    · simp [setAttr, lookupAttr, h0, ih]

theorem set_defaults_plotid (obj : PObj) (idx : Nat)
    (h : hasAttr obj.plotinfo "plotid" = false) :
    lookupAttr (set_defaults obj idx).plotinfo "plotid"
      = some (Value.vStr (obj.ftype.name ++ natStr idx)) := by
  simp only [set_defaults, h, Bool.false_eq_true, if_false]
  by_cases h2 : hasAttr (setAttr obj.plotinfo "plotid" (Value.vStr (obj.ftype.name ++ natStr idx))) "plotorder"
  · simp only [h2, if_true]
    exact lookupAttr_setAttr_self _ _ _
  · simp only [h2, Bool.false_eq_true, if_false]
    rw [lookupAttr_setAttr_ne _ _ _ _ (by decide)]
    exact lookupAttr_setAttr_self _ _ _

theorem set_defaults_ftype (obj : PObj) (idx : Nat) :
    (set_defaults obj idx).ftype = obj.ftype := by
  simp only [set_defaults]
  split <;> split <;> rfl

theorem configure_list_none (l : List PObj) :
    ∀ i, configure_list none l i = .ok (defaults_list l i) (i + l.length) := by
  induction l with
  | nil => intro i; simp [configure_list, defaults_list]
  | cons o rest ih =>
    intro i
    simp only [configure_list, configure_plotobject, ih (i + 1), defaults_list, List.length_cons]
    congr 1
    omega

theorem defaults_list_length (l : List PObj) : ∀ i, (defaults_list l i).length = l.length := by
  induction l with
  | nil => intro i; rfl
  | cons o rest ih => intro i; simp [defaults_list, ih]

theorem defaults_list_getElem (l : List PObj) :
    ∀ i j (hj : j < l.length) (hj' : j < (defaults_list l i).length),
      (defaults_list l i)[j] = set_defaults l[j] (i + j) := by
  induction l with
  | nil =>
    intro i j hj hj'
    exact absurd hj (by simp)
  | cons o rest ih =>
    intro i j hj hj'
    cases j with
    | zero => simp [defaults_list]
    | succ j' =>
      simp only [defaults_list, List.getElem_cons_succ]
      rw [ih (i + 1) j' (by simpa using hj) (by rw [defaults_list_length]; simpa using hj)]
      congr 1
      omega

theorem apply_rule_isStrategy (obj : PObj) (idx : Nat) (r : ConfigRule) :
    (resultState (apply_rule obj idx r)).isStrategy = obj.isStrategy := by
  unfold apply_rule overridden
  repeat' split
  all_goals rfl

theorem apply_rules_isStrategy (rules : List ConfigRule) :
    ∀ obj idx, (resultState (apply_rules obj idx rules)).isStrategy = obj.isStrategy := by
  induction rules with
  | nil => intro obj idx; rfl
  | cons r rest ih =>
    intro obj idx
    simp only [apply_rules]
    cases h : apply_rule obj idx r with
    | exn o m =>
      have := apply_rule_isStrategy obj idx r
      rw [h] at this
      exact this
    | ok o u =>
      have hsame := apply_rule_isStrategy obj idx r
      rw [h] at hsame
      exact (ih o idx).trans hsame

theorem set_defaults_isStrategy (obj : PObj) (idx : Nat) :
    (set_defaults obj idx).isStrategy = obj.isStrategy := by
  simp only [set_defaults]
  split <;> split <;> rfl

theorem configure_plotobject_isStrategy (pconf : Option (List ConfigRule)) (obj : PObj) (idx : Nat) :
    (resultState (configure_plotobject pconf obj idx)).isStrategy = obj.isStrategy := by
  cases pconf with
  | none =>
    simp only [configure_plotobject, resultState]
    exact set_defaults_isStrategy obj idx
  | some rules =>
    simp only [configure_plotobject]
    rw [apply_rules_isStrategy rules (set_defaults obj idx) idx, set_defaults_isStrategy]

theorem flatten_cons_true (d : PObj) (cs : List PObj) (rest : List (PObj × List PObj))
    (h : d.isStrategy = true) :
    flatten_plotobjs ((d, cs) :: rest) = cs ++ flatten_plotobjs rest := by
  simp [flatten_plotobjs, h]

theorem flatten_cons_false (d : PObj) (cs : List PObj) (rest : List (PObj × List PObj))
    (h : d.isStrategy = false) :
    flatten_plotobjs ((d, cs) :: rest) = d :: (cs ++ flatten_plotobjs rest) := by
  simp [flatten_plotobjs, h]

theorem configure_list_append (pconf : Option (List ConfigRule)) (l₁ l₂ : List PObj) :
    ∀ i, configure_list pconf (l₁ ++ l₂) i
      = match configure_list pconf l₁ i with
        | .exn s m => .exn (s ++ l₂) m
        | .ok s i' => (configure_list pconf l₂ i').mapS (fun s₂ => s ++ s₂) := by
  induction l₁ with
  | nil =>
    intro i
    simp only [List.nil_append, configure_list]
    cases h : configure_list pconf l₂ i <;> simp [PyResult.mapS]
  | cons o rest ih =>
    intro i
    rw [show (o :: rest) ++ l₂ = o :: (rest ++ l₂) from rfl]
    simp only [configure_list]
    cases h1 : configure_plotobject pconf o i with
    | exn o' m => rfl
    | ok o' u =>
      rw [ih (i + 1)]
      cases h2 : configure_list pconf rest (i + 1) with
      | exn s m => rfl
      | ok s i' =>
        cases h3 : configure_list pconf l₂ i' <;> simp [PyResult.mapS, h3]


theorem configure_masters_flatten (pconf : Option (List ConfigRule)) (objs : List (PObj × List PObj)) :
    ∀ i, (configure_masters pconf objs i).mapS flatten_plotobjs
      = configure_list pconf (flatten_plotobjs objs) i := by
  induction objs with
  | nil => intro i; rfl
  | cons dc rest ih =>
    obtain ⟨d, cs⟩ := dc
    intro i
    cases hs : d.isStrategy with
    | true =>
      rw [flatten_cons_true d cs rest hs, configure_list_append]
      simp only [configure_masters, hs, if_true]
      cases h1 : configure_list pconf cs i with
      | exn s m =>
        simp only [PyResult.mapS]
        rw [flatten_cons_true d s rest hs]
      | ok s i' =>
        dsimp only
        rw [← ih i']
        cases h2 : configure_masters pconf rest i' with
        | exn s2 m =>
          simp only [PyResult.mapS]
          rw [flatten_cons_true d s s2 hs]
        | ok s2 i2 =>
          simp only [PyResult.mapS]
          rw [flatten_cons_true d s s2 hs]
    | false =>
      rw [flatten_cons_false d cs rest hs]
      simp only [configure_masters, hs, Bool.false_eq_true, if_false, configure_list]
      cases hd : configure_plotobject pconf d i with
      | exn d' m =>
        have hd' : d'.isStrategy = false := by
          have hps := configure_plotobject_isStrategy pconf d i
          rw [hd] at hps
          simpa [resultState, hs] using hps
        simp only [PyResult.mapS]
        rw [flatten_cons_false d' cs rest hd']
      | ok d' u =>
        have hd' : d'.isStrategy = false := by
          have hps := configure_plotobject_isStrategy pconf d i
          rw [hd] at hps
          simpa [resultState, hs] using hps
        rw [configure_list_append]
        cases h1 : configure_list pconf cs (i + 1) with
        | exn s m =>
          simp only [PyResult.mapS]
          rw [flatten_cons_false d' s rest hd']
        | ok s i' =>
          dsimp only
          rw [← ih i']
          cases h2 : configure_masters pconf rest i' with
          | exn s2 m =>
            simp only [PyResult.mapS]
            rw [flatten_cons_false d' s s2 hd']
          | ok s2 i2 =>
            simp only [PyResult.mapS]
            rw [flatten_cons_false d' s s2 hd']

theorem configure_masters_length (pconf : Option (List ConfigRule)) (objs : List (PObj × List PObj)) :
    ∀ i, (resultState (configure_masters pconf objs i)).length = objs.length := by
  induction objs with
  | nil => intro i; rfl
  | cons dc rest ih =>
    obtain ⟨d, cs⟩ := dc
    intro i
    cases hs : d.isStrategy with
    | true =>
      simp only [configure_masters, hs, if_true]
      cases h1 : configure_list pconf cs i with
      | exn s m => simp [resultState]
      | ok s i' =>
        dsimp only
        cases h2 : configure_masters pconf rest i' with
        | exn s2 m =>
          have := ih i'
          rw [h2] at this
          simp only [resultState] at this ⊢
          simp [this]
        | ok s2 i2 =>
          have := ih i'
          rw [h2] at this
          simp only [resultState] at this ⊢
          simp [this]
    | false =>
      simp only [configure_masters, hs, Bool.false_eq_true, if_false]
      cases hd : configure_plotobject pconf d i with
      | exn d' m => simp [resultState]
      | ok d' u =>
        cases h1 : configure_list pconf cs (i + 1) with
        | exn s m => simp [resultState]
        | ok s i' =>
          dsimp only
          cases h2 : configure_masters pconf rest i' with
          | exn s2 m =>
            have := ih i'
            rw [h2] at this
            simp only [resultState] at this ⊢
            simp [this]
          | ok s2 i2 =>
            have := ih i'
            rw [h2] at this
            simp only [resultState] at this ⊢
            simp [this]

theorem configure_masters_strategy_preserved (pconf : Option (List ConfigRule))
    (objs : List (PObj × List PObj)) :
    ∀ i j (hj : j < objs.length), objs[j].1.isStrategy = true →
      ((resultState (configure_masters pconf objs i))[j]?).map Prod.fst = some objs[j].1 := by
  induction objs with
  | nil =>
    intro i j hj hstrat
    exact absurd hj (by simp)
  | cons dc rest ih =>
    obtain ⟨d, cs⟩ := dc
    intro i j hj hstrat
    cases hs : d.isStrategy with
    | true =>
      simp only [configure_masters, hs, if_true]
      cases h1 : configure_list pconf cs i with
      | exn s m =>
        cases j with
        | zero => simp [resultState]
        | succ j' =>
          simp only [resultState, List.getElem?_cons_succ]
          have hj2 : j' < rest.length := by simpa using hj
          rw [List.getElem?_eq_getElem hj2]
          simp
      | ok s i' =>
        dsimp only
        cases h2 : configure_masters pconf rest i' with
        | exn s2 m =>
          cases j with
          | zero => simp [resultState]
          | succ j' =>
            have hj2 : j' < rest.length := by simpa using hj
            have hr := ih i' j' hj2 (by simpa using hstrat)
            rw [h2] at hr
            simpa [resultState] using hr
        | ok s2 i2 =>
          cases j with
          | zero => simp [resultState]
          | succ j' =>
            have hj2 : j' < rest.length := by simpa using hj
            have hr := ih i' j' hj2 (by simpa using hstrat)
            rw [h2] at hr
            simpa [resultState] using hr
    | false =>
      simp only [configure_masters, hs, Bool.false_eq_true, if_false]
      cases hd : configure_plotobject pconf d i with
      | exn d' m =>
        cases j with
        | zero =>
          exfalso
          simp only [List.getElem_cons_zero] at hstrat
          rw [hs] at hstrat
          exact Bool.false_ne_true hstrat
        | succ j' =>
          simp only [resultState, List.getElem?_cons_succ]
          have hj2 : j' < rest.length := by simpa using hj
          rw [List.getElem?_eq_getElem hj2]
          simp
      | ok d' u =>
        cases h1 : configure_list pconf cs (i + 1) with
        | exn s m =>
          cases j with
          | zero =>
            exfalso
            simp only [List.getElem_cons_zero] at hstrat
            rw [hs] at hstrat
            exact Bool.false_ne_true hstrat
          | succ j' =>
            simp only [resultState, List.getElem?_cons_succ]
            have hj2 : j' < rest.length := by simpa using hj
            rw [List.getElem?_eq_getElem hj2]
            simp
        | ok s i' =>
          dsimp only
          cases h2 : configure_masters pconf rest i' with
          | exn s2 m =>
            cases j with
            | zero =>
              exfalso
              simp only [List.getElem_cons_zero] at hstrat
              rw [hs] at hstrat
              exact Bool.false_ne_true hstrat
            | succ j' =>
              have hj2 : j' < rest.length := by simpa using hj
              have hr := ih i' j' hj2 (by simpa using hstrat)
              rw [h2] at hr
              simpa [resultState] using hr
          | ok s2 i2 =>
            cases j with
            | zero =>
              exfalso
              simp only [List.getElem_cons_zero] at hstrat
              rw [hs] at hstrat
              exact Bool.false_ne_true hstrat
            | succ j' =>
              have hj2 : j' < rest.length := by simpa using hj
              have hr := ih i' j' hj2 (by simpa using hstrat)
              rw [h2] at hr
              simpa [resultState] using hr


/-! The claim theorems, with their witnesses and counterexamples. -/

/-- C1 (corrected): for a configured `byLabelRegex` rule, the overrides
are applied if and only if the pattern matches a prefix of the object's
display label anchored at position 0 (Python `re.match` semantics: the
match must start at the beginning of the label, but need not cover all of
it) — not `re.search` semantics. -/
theorem c1_regex_rule_anchored_at_start (rule : ConfigRule) (obj : PObj) (idx : Nat)
    (h : rule.ctype = "r") :
    (reMatch rule.targetRe obj.label.data = true
        ↔ ∃ p t, obj.label.data = p ++ t ∧ rmatch rule.targetRe p = true)
    ∧ apply_rule obj idx rule
        = .ok (if reMatch rule.targetRe obj.label.data then overridden obj rule else obj) () := by
  constructor
  · exact reMatch_iff rule.targetRe obj.label.data
  · simp [apply_rule, h]

/-- C1 witness: the corrected statement applied to the concrete rule
`"r:b"` and the object labelled `"ab"`. -/
theorem c1_witness :
    (reMatch c1rule.targetRe c1obj.label.data = true
        ↔ ∃ p t, c1obj.label.data = p ++ t ∧ rmatch c1rule.targetRe p = true)
    ∧ apply_rule c1obj 0 c1rule
        = .ok (if reMatch c1rule.targetRe c1obj.label.data then overridden c1obj c1rule else c1obj) () :=
  c1_regex_rule_anchored_at_start c1rule c1obj 0 rfl

/-- C1 counterexample: the pattern `b` matches the label `"ab"` under
regex search semantics, yet `_configure_plotobject` applies nothing: the
object comes back unchanged and its `color` attribute is never set. -/
theorem c1_counterexample :
    reSearch c1rule.targetRe c1obj.label.data = true
    ∧ configure_plotobject (some [c1rule]) c1obj 0 = .ok c1obj ()
    ∧ lookupAttr c1obj.plotinfo "color" = none := by
  refine ⟨by decide, by decide, by decide⟩

/-- C2 (confirmed): `_get_plotobjects` keeps a master iff the predicate
is false on it, dropping a filtered master together with all of its
children (whose own predicate values are never consulted), keeps a child
of a kept master iff the predicate is false on the child, and preserves
the relative order of surviving masters and children. -/
theorem c2_filter_cascading (objs : List (PObj × List PObj)) (p : PObj → Bool) :
    get_plotobjects objs p
      = (objs.filter (fun oc => !p oc.1)).map (fun oc => (oc.1, oc.2.filter (fun c => !p c))) := by
  induction objs with
  | nil => rfl
  | cons oc rest ih =>
    obtain ⟨o, childs⟩ := oc
    by_cases h : p o = true
    · simp [get_plotobjects, h, ih]
    · simp only [Bool.not_eq_true] at h
      simp [get_plotobjects, h, ih]

/-- C3 (confirmed): `create_figurepage` with an already-bound session id
raises before binding anything: the call fails and returns with the
application state — the page mapping and every bound page — exactly as it
was. -/
theorem c3_duplicate_session_id (app : AppState) (obj : SourceObj) (figid : Nat)
    (p : PObj → Bool) (h : (app.figurepages.lookup figid).isSome = true) :
    create_figurepage app obj figid p
      = .exn app ("FigurePage with figid " ++ natStr figid ++ " already exists")
    ∧ resultState (create_figurepage app obj figid p) = app := by
  constructor
  · simp [create_figurepage, h]
  · simp [create_figurepage, h, resultState]

/-- C3 witness: creating a page under session id 0 on an app that
already holds a page under id 0 fails and leaves the state unchanged. -/
theorem c3_witness :
    (c3app.figurepages.lookup 0).isSome = true
    ∧ (create_figurepage c3app (.optreturn []) 0 (fun _ => false)
        = .exn c3app ("FigurePage with figid " ++ natStr 0 ++ " already exists")
      ∧ resultState (create_figurepage c3app (.optreturn []) 0 (fun _ => false)) = c3app) :=
  ⟨by decide, c3_duplicate_session_id c3app (.optreturn []) 0 (fun _ => false) (by decide)⟩

/-- C4 (confirmed): a parseable `byTypeAndOrdinal` rule applies its
overrides exactly when the object's runtime category equals the rule's
target category and the object's ordinal equals the target ordinal; any
mismatch leaves the object untouched. -/
theorem c4_type_and_ordinal_exact (rule : ConfigRule) (obj : PObj) (idx : Nat)
    (tn ti : String) (ft : FigureType) (n : Int)
    (h1 : rule.ctype ≠ "r") (h2 : rule.ctype ≠ "") (h3 : rule.ctype.front = '#')
    (h4 : py_split_dash rule.target = [tn, ti])
    (h5 : FigureType.get_obj tn = some ft) (h6 : parseInt ti = some n) :
    apply_rule obj idx rule
      = .ok (if obj.ftype = ft ∧ n = (idx : Int) then overridden obj rule else obj) () := by
  simp only [apply_rule, h1, if_false, h2, h3, if_true, h4, h5, h6]
  by_cases hft : obj.ftype = ft
  · by_cases hn : n = (idx : Int)
    · simp [hft, hn]
    · simp [hft, hn]
  · simp [hft]

/-- C4 witness: the rule `"#1:IND-3"` applied to an indicator object at
ordinal 3 (overrides applied because both components match). -/
theorem c4_witness :
    apply_rule c1obj 3 c4rule
      = .ok (if c1obj.ftype = FigureType.IND ∧ (3 : Int) = ((3 : Nat) : Int)
             then overridden c1obj c4rule else c1obj) () :=
  c4_type_and_ordinal_exact c4rule c1obj 3 "IND" "3" FigureType.IND 3
    (by decide) (by decide) (by decide) (by decide) (by decide) (by decide)

theorem lookup_append_last (l : List (Nat × FigurePage)) (figid : Nat) (fp : FigurePage)
    (h : l.lookup figid = none) :
    (l ++ [(figid, fp)]).lookup figid = some fp := by
  induction l with
  | nil => simp [List.lookup]
  | cons kv rest ih =>
    obtain ⟨k, v⟩ := kv
    simp only [List.lookup, List.cons_append] at h ⊢
    cases hbeq : (figid == k) with
    | true =>
      simp only [hbeq] at h
      exact absurd h (by simp)
    | false =>
      simp only [hbeq] at h ⊢
      exact ih h

/-- C8 (confirmed): a configured rule whose match-kind is none of the
three known kinds is fatal: hitting it raises immediately with the object
exactly as it was before that rule (none of its overrides are applied,
and no later rule runs), and any rule list containing such a rule makes
the whole rule loop end in an exception. -/
theorem c8_unknown_match_kind_fatal (rules pre post : List ConfigRule) (bad : ConfigRule)
    (obj : PObj) (idx : Nat)
    (hb1 : bad.ctype ≠ "r") (hb2 : bad.ctype ≠ "") (hb3 : ¬ bad.ctype.front = '#')
    (hb4 : bad.ctype ≠ "id") (hsplit : rules = pre ++ bad :: post) :
    apply_rules obj idx (bad :: post) = .exn obj "Unknown config type in plotting config"
    ∧ ∃ o msg, apply_rules obj idx rules = .exn o msg := by
  have hbad : ∀ o : PObj, apply_rule o idx bad = .exn o "Unknown config type in plotting config" := by
    intro o
    simp [apply_rule, hb1, hb2, hb3, hb4]
  constructor
  · simp only [apply_rules, hbad obj]
  · subst hsplit
    clear hb1 hb2 hb3 hb4
    induction pre generalizing obj with
    | nil =>
      exact ⟨obj, "Unknown config type in plotting config", by simp only [List.nil_append, apply_rules, hbad obj]⟩
    | cons r rest ih =>
      rw [List.cons_append]
      simp only [apply_rules]
      cases h : apply_rule obj idx r with
      | exn o m => exact ⟨o, m, rfl⟩
      | ok o u => exact ih o

/-- C8 witness: the rule list containing only the unknown-kind rule
`"zzz:t"` aborts the rule loop with the object unchanged. -/
theorem c8_witness :
    apply_rules c1obj 0 (c8rule :: []) = .exn c1obj "Unknown config type in plotting config"
    ∧ ∃ o msg, apply_rules c1obj 0 [c8rule] = .exn o msg :=
  c8_unknown_match_kind_fatal [c8rule] [] [] c8rule c1obj 0
    (by decide) (by decide) (by decide) (by decide) rfl

/-- C10 (confirmed): `create_figurepage` on an unbound session id with a
source object that is neither a strategy nor an optimization result
raises the unsupported-source exception only after the fresh page has
been bound: the failed call leaves the new, partially initialized page
registered under the session id (the binding is not rolled back). -/
theorem c10_unsupported_source_keeps_binding (app : AppState) (figid : Nat)
    (p : PObj → Bool) (h : app.figurepages.lookup figid = none) :
    create_figurepage app .unsupported figid p
      = .exn { app with figurepages := app.figurepages ++ [(figid, FigurePage.init .unsupported)] }
          "Unsupported plot source object"
    ∧ (resultState (create_figurepage app .unsupported figid p)).figurepages.lookup figid
        = some (FigurePage.init .unsupported) := by
  have h1 : create_figurepage app .unsupported figid p
      = .exn { app with figurepages := app.figurepages ++ [(figid, FigurePage.init .unsupported)] }
          "Unsupported plot source object" := by
    simp [create_figurepage, h]
  refine ⟨h1, ?_⟩
  rw [h1]
  simp only [resultState]
  exact lookup_append_last app.figurepages figid (FigurePage.init .unsupported) h

/-- C10 witness: an app with no pages, asked to create a page for an
unsupported object under session id 0, fails yet keeps the binding. -/
theorem c10_witness :
    create_figurepage c10app .unsupported 0 (fun _ => false)
      = .exn { c10app with figurepages := c10app.figurepages ++ [(0, FigurePage.init .unsupported)] }
          "Unsupported plot source object"
    ∧ (resultState (create_figurepage c10app .unsupported 0 (fun _ => false))).figurepages.lookup 0
        = some (FigurePage.init .unsupported) :=
  c10_unsupported_source_keeps_binding c10app 0 (fun _ => false) (by decide)

/-- C9 (confirmed): the configuration traversal excludes the strategy
master: the run over the master→children map equals (modulo regrouping)
the run over the flattened sequence in which strategy masters are absent
but their children remain, with the global ordinal counter starting at 0;
the map keeps its shape and every strategy master comes through the pass
untouched. With no rules configured this makes every traversed object
receive its defaults at its position in the strategy-free sequence. -/
theorem c9_strategy_master_excluded (pconf : Option (List ConfigRule))
    (objs : List (PObj × List PObj)) :
    (configure_plotting pconf objs).mapS flatten_plotobjs
        = configure_list pconf (flatten_plotobjs objs) 0
    ∧ (configure_plotting none objs).mapS flatten_plotobjs
        = .ok (defaults_list (flatten_plotobjs objs) 0) (0 + (flatten_plotobjs objs).length)
    ∧ (resultState (configure_plotting pconf objs)).length = objs.length
    ∧ ∀ j (hj : j < objs.length), objs[j].1.isStrategy = true →
        ((resultState (configure_plotting pconf objs))[j]?).map Prod.fst = some objs[j].1 := by
  refine ⟨configure_masters_flatten pconf objs 0, ?_, configure_masters_length pconf objs 0,
    fun j hj hs => configure_masters_strategy_preserved pconf objs 0 j hj hs⟩
  rw [show configure_plotting none objs = configure_masters none objs 0 from rfl]
  rw [configure_masters_flatten none objs 0, configure_list_none]

/-- C9 witness: on a map holding one strategy master with one child, the
strategy master at position 0 is untouched by the pass. -/
theorem c9_witness :
    c9objs[0].1.isStrategy = true
    ∧ ((resultState (configure_plotting none c9objs))[0]?).map Prod.fst = some c9objs[0].1 :=
  ⟨by decide, (c9_strategy_master_excluded none c9objs).2.2.2 0 (by decide) (by decide)⟩

/-- C5 counterexample: two objects that reach the pass already carrying
the same pre-assigned `plotid` `"X"` keep it: after the pass the page
holds two plot objects with identical plot ids, so page-uniqueness fails
as stated. -/
theorem c5_counterexample :
    (flatten_plotobjs (resultState (configure_plotting none c5objs))).map
        (fun o => lookupAttr o.plotinfo "plotid")
      = [some (Value.vStr "X"), some (Value.vStr "X")]
    ∧ ¬ (flatten_plotobjs (resultState (configure_plotting none c5objs))).Pairwise
        (fun a b => lookupAttr a.plotinfo "plotid" ≠ lookupAttr b.plotinfo "plotid") := by
  exact ⟨by decide, by decide⟩

/-- C5 (corrected): when no traversed object carries a pre-assigned
`plotid` (and no rules are configured), the default-identity pass gives
every plot object of the page a non-empty `plotid`, and the assigned ids
are pairwise distinct. -/
theorem c5_default_ids_unique (objs : List (PObj × List PObj))
    (h : ∀ o ∈ flatten_plotobjs objs, hasAttr o.plotinfo "plotid" = false) :
    ∃ out n, configure_plotting none objs = .ok out n
      ∧ (∀ o ∈ flatten_plotobjs out,
          ∃ s, lookupAttr o.plotinfo "plotid" = some (Value.vStr s) ∧ s ≠ "")
      ∧ (flatten_plotobjs out).Pairwise
          (fun a b => lookupAttr a.plotinfo "plotid" ≠ lookupAttr b.plotinfo "plotid") := by
  have hfl : (configure_plotting none objs).mapS flatten_plotobjs
      = .ok (defaults_list (flatten_plotobjs objs) 0) (0 + (flatten_plotobjs objs).length) := by
    rw [show configure_plotting none objs = configure_masters none objs 0 from rfl,
      configure_masters_flatten none objs 0, configure_list_none]
  cases hcp : configure_plotting none objs with
  | exn s m =>
    rw [hcp] at hfl
    simp [PyResult.mapS] at hfl
  | ok out n =>
    rw [hcp] at hfl
    simp only [PyResult.mapS, PyResult.ok.injEq] at hfl
    obtain ⟨hout, hn⟩ := hfl
    refine ⟨out, n, rfl, ?_, ?_⟩
    · intro o ho
      rw [hout] at ho
      obtain ⟨j, hj, hoj⟩ := List.mem_iff_getElem.mp ho
      have hjlen : j < (flatten_plotobjs objs).length := by
        rw [defaults_list_length] at hj
        exact hj
      rw [defaults_list_getElem _ 0 j hjlen hj] at hoj
      subst hoj
      refine ⟨((flatten_plotobjs objs)[j]).ftype.name ++ natStr (0 + j), ?_, ?_⟩
      · exact set_defaults_plotid _ _ (h _ (List.getElem_mem hjlen))
      · exact natStr_ne_empty_append _
    · rw [hout, List.pairwise_iff_getElem]
      intro a b ha hb hab
      have halen : a < (flatten_plotobjs objs).length := by
        rw [defaults_list_length] at ha
        exact ha
      have hblen : b < (flatten_plotobjs objs).length := by
        rw [defaults_list_length] at hb
        exact hb
      rw [defaults_list_getElem _ 0 a halen ha, defaults_list_getElem _ 0 b hblen hb]
      rw [set_defaults_plotid _ _ (h _ (List.getElem_mem halen)),
        set_defaults_plotid _ _ (h _ (List.getElem_mem hblen))]
      intro heq
      have hstr := Option.some.inj heq
      have hstr2 := Value.vStr.inj hstr
      have := (plotid_inj _ _ _ _ hstr2).2
      omega

/-- C5 witness: the corrected statement applied to a concrete
master→children map with two masters and one child, none carrying a
pre-assigned `plotid`. -/
theorem c5_witness :
    (∀ o ∈ flatten_plotobjs c5wobjs, hasAttr o.plotinfo "plotid" = false)
    ∧ ∃ out n, configure_plotting none c5wobjs = .ok out n
      ∧ (∀ o ∈ flatten_plotobjs out,
          ∃ s, lookupAttr o.plotinfo "plotid" = some (Value.vStr s) ∧ s ≠ "")
      ∧ (flatten_plotobjs out).Pairwise
          (fun a b => lookupAttr a.plotinfo "plotid" ≠ lookupAttr b.plotinfo "plotid") :=
  ⟨by decide, c5_default_ids_unique c5wobjs (by decide)⟩

theorem build_figures_length (l : List (PObj × List PObj)) :
    ∀ i, (build_figures l i).length = l.length := by
  induction l with
  | nil => intro i; rfl
  | cons oc rest ih =>
    obtain ⟨parent, childs⟩ := oc
    intro i
    simp [build_figures, ih]

theorem link_axis_length (figs : List BFigure) :
    (link_axis figs).length = figs.length := by
  cases figs with
  | nil => rfl
  | cons f0 rest => simp [link_axis]

theorem link_axis_ref (figs : List BFigure) (k : Nat) (hk : k < (link_axis figs).length)
    (h0 : 0 < figs.length) :
    ((link_axis figs)[k]).xRangeRef = (figs[0]).xRangeRef := by
  cases figs with
  | nil => exact absurd h0 (by simp)
  | cons f0 rest =>
    cases k with
    | zero => simp [link_axis]
    | succ k' =>
      have hk' : k' < rest.length := by
        have := hk
        rw [link_axis_length] at this
        simpa using this
      simp [link_axis]

/-- C6 (corrected): after the axis-linking step of figure composition,
every primary figure — one built per (master, children) pair in the
composition loop — references the very same x-range object as the figure
at construction index 0; derived volume figures appended afterwards are
outside this linking step. -/
theorem c6_primary_figures_share_first_axis (scheme : Scheme)
    (objs : List (PObj × List PObj)) (p : PObj → Bool) (i : Nat)
    (hiP : i < (get_plotobjects objs p).length)
    (hi : i < (blueprint_strategy scheme objs p).length)
    (h0 : 0 < (blueprint_strategy scheme objs p).length) :
    ((blueprint_strategy scheme objs p)[i]).xRangeRef
      = ((blueprint_strategy scheme objs p)[0]).xRangeRef := by
  have hlenB : (build_figures (get_plotobjects objs p) 0).length
      = (get_plotobjects objs p).length := build_figures_length _ 0
  have hlenF : (link_axis (build_figures (get_plotobjects objs p) 0)).length
      = (get_plotobjects objs p).length := by
    rw [link_axis_length, hlenB]
  have h0' : 0 < (get_plotobjects objs p).length := by omega
  have h0B : 0 < (build_figures (get_plotobjects objs p) 0).length := by omega
  by_cases hv : (scheme.volume && (scheme.voloverlay = false)) = true
  · have hb : blueprint_strategy scheme objs p
        = link_axis (build_figures (get_plotobjects objs p) 0)
          ++ volume_figures (link_axis (build_figures (get_plotobjects objs p) 0)) := by
      simp only [blueprint_strategy]
      rw [if_pos hv]
    simp only [hb]
    rw [List.getElem_append_left (by omega), List.getElem_append_left (by omega)]
    rw [link_axis_ref _ i (by omega) h0B, link_axis_ref _ 0 (by omega) h0B]
  · have hb : blueprint_strategy scheme objs p
        = link_axis (build_figures (get_plotobjects objs p) 0) := by
      simp only [blueprint_strategy]
      rw [if_neg hv]
    simp only [hb]
    rw [link_axis_ref _ i (by omega) h0B, link_axis_ref _ 0 (by omega) h0B]

/-- C6 witness: on two masters, the second primary figure references the
first figure's x-range object. -/
theorem c6_witness :
    ((blueprint_strategy c6scheme c6wobjs (fun _ => false)).get ⟨1, by decide⟩).xRangeRef
      = ((blueprint_strategy c6scheme c6wobjs (fun _ => false)).get ⟨0, by decide⟩).xRangeRef :=
  c6_primary_figures_share_first_axis c6scheme c6wobjs (fun _ => false) 1
    (by decide) (by decide) (by decide)

/-- C6 counterexample: with non-overlaid volume enabled and one data
feed, the page ends composition with two figures, and the derived volume
figure at index 1 references a different x-range object than the figure
at index 0 — so not every figure on the page shares the first figure's
range object. -/
theorem c6_counterexample :
    ¬ ∀ i (hi : i < (blueprint_strategy c6scheme c6objs (fun _ => false)).length)
        (h0 : 0 < (blueprint_strategy c6scheme c6objs (fun _ => false)).length),
        ((blueprint_strategy c6scheme c6objs (fun _ => false)).get ⟨i, hi⟩).xRangeRef
          = ((blueprint_strategy c6scheme c6objs (fun _ => false)).get ⟨0, h0⟩).xRangeRef := by
  intro hall
  have h1 := hall 1 (by decide) (by decide)
  revert h1
  decide

theorem key_le_refl (a : Int × Nat × Nat) : key_le a a = true := by
  obtain ⟨x, y, z⟩ := a
  simp only [key_le, Bool.or_eq_true, Bool.and_eq_true, decide_eq_true_eq, true_and]
  omega

theorem key_le_trans (a b c : Int × Nat × Nat)
    (hab : key_le a b = true) (hbc : key_le b c = true) : key_le a c = true := by
  obtain ⟨xa, ya, za⟩ := a
  obtain ⟨xb, yb, zb⟩ := b
  obtain ⟨xc, yc, zc⟩ := c
  simp only [key_le, Bool.or_eq_true, Bool.and_eq_true, decide_eq_true_eq] at hab hbc ⊢
  omega

theorem key_le_total (a b : Int × Nat × Nat) :
    (key_le a b || key_le b a) = true := by
  obtain ⟨xa, ya, za⟩ := a
  obtain ⟨xb, yb, zb⟩ := b
  simp only [key_le, Bool.or_eq_true, Bool.and_eq_true, decide_eq_true_eq, true_and]
  omega

/-- C7 (confirmed): the panel-planning sort arranges the page's figures
by the tuple (plotorder, feed sort key — the clock-irrelevant feed first,
then feeds in declared order —, figure kind), ascending and
lexicographic; the output is a permutation of the input, and the sort is
stable: the figures carrying any fixed key tuple appear in the output in
exactly their input order. -/
theorem c7_sort_stable_by_tuple (datanames : List String) (figs : List BFigure) :
    List.Perm (sort_figures datanames figs) figs
    ∧ (sort_figures datanames figs).Pairwise
        (fun a b => key_le (fig_sort_key datanames a) (fig_sort_key datanames b) = true)
    ∧ ∀ k : Int × Nat × Nat,
        (sort_figures datanames figs).filter (fun f => fig_sort_key datanames f = k)
          = figs.filter (fun f => fig_sort_key datanames f = k) := by
  have trans' : ∀ a b c : BFigure,
      key_le (fig_sort_key datanames a) (fig_sort_key datanames b) →
      key_le (fig_sort_key datanames b) (fig_sort_key datanames c) →
      key_le (fig_sort_key datanames a) (fig_sort_key datanames c) :=
    fun a b c hab hbc => key_le_trans _ _ _ hab hbc
  have total' : ∀ a b : BFigure,
      (key_le (fig_sort_key datanames a) (fig_sort_key datanames b)
        || key_le (fig_sort_key datanames b) (fig_sort_key datanames a)) :=
    fun a b => key_le_total _ _
  refine ⟨List.mergeSort_perm figs _, List.sorted_mergeSort trans' total' figs, ?_⟩
  intro k
  have hpair : (figs.filter (fun f => fig_sort_key datanames f = k)).Pairwise
      (fun a b => key_le (fig_sort_key datanames a) (fig_sort_key datanames b) = true) := by
    apply List.pairwise_of_forall_mem_list
    intro a ha b hb
    have hka := (List.mem_filter.mp ha).2
    have hkb := (List.mem_filter.mp hb).2
    simp only [decide_eq_true_eq] at hka hkb
    rw [hka, hkb]
    exact key_le_refl k
  have hsub : List.Sublist (figs.filter (fun f => fig_sort_key datanames f = k))
      (sort_figures datanames figs) :=
    List.sublist_mergeSort trans' total' hpair (List.filter_sublist figs)
  have hsub2 : List.Sublist (figs.filter (fun f => fig_sort_key datanames f = k))
      ((sort_figures datanames figs).filter (fun f => fig_sort_key datanames f = k)) := by
    have hself : (figs.filter (fun f => fig_sort_key datanames f = k)).filter
        (fun f => fig_sort_key datanames f = k)
        = figs.filter (fun f => fig_sort_key datanames f = k) :=
      List.filter_eq_self.mpr (fun a ha => (List.mem_filter.mp ha).2)
    have := hsub.filter (fun f => fig_sort_key datanames f = k)
    rwa [hself] at this
  have hperm : List.Perm ((sort_figures datanames figs).filter (fun f => fig_sort_key datanames f = k))
      (figs.filter (fun f => fig_sort_key datanames f = k)) :=
    (List.mergeSort_perm figs _).filter _
  exact (hsub2.eq_of_length hperm.length_eq.symm).symm

end Btp
